import Mathlib

/-!
Shallow embedding of the CRM backend (`main.go`): a CRUD HTTP service over an
in-memory map from `uint64` customer ids to `Customer` records.  The Go map is
modelled as an association list whose operations (`lookupId`, `insertId`,
`eraseId`) realise map semantics; each HTTP handler becomes a pure function
from the store and the request data to a response carrying the status code,
the encoded body and the resulting store.
-/

/-- `type Customer struct` (main.go lines 24-31).  `Id` is a Go `uint64`;
ids only flow from `strconv.ParseUint(_, 10, 64)`, which enforces the
`< 2^64` bound at the boundary, so the field itself is a `Nat`. -/
structure Customer where
  Id : Nat
  Name : String
  Role : String
  Email : String
  Phone : String
  IsContacted : Bool
deriving DecidableEq, Repr

/-- The Go map `map[uint64]Customer` as an association list of
key/record pairs. -/
abbrev Store := List (Nat × Customer)

/-- Go map indexing `customers[id]`: the record stored under `id`, if any. -/
def lookupId : Store → Nat → Option Customer
  | [], _ => none
  | (k, v) :: rest, id => if k = id then some v else lookupId rest id

/-- Go map assignment `customers[id] = c`: replace the entry if the key is
present, otherwise add a new one. -/
def insertId : Store → Nat → Customer → Store
  | [], id, c => [(id, c)]
  | (k, v) :: rest, id, c =>
      if k = id then (id, c) :: rest else (k, v) :: insertId rest id c

/-- Go `delete(customers, id)`: drop every entry stored under `id`
(at most one, since map keys are unique). -/
def eraseId : Store → Nat → Store
  | [], _ => []
  | (k, v) :: rest, id =>
      if k = id then eraseId rest id else (k, v) :: eraseId rest id

/-- The keys currently present in the store. -/
def storeKeys (s : Store) : List Nat := s.map Prod.fst

/-- `john.doe@gmail.com` seed record (main.go lines 45-52). -/
def johnDoe : Customer :=
  ⟨1, "John Doe", "Admin", "john.doe@gmail.com", "1234567890", false⟩

/-- `jane.doe@gmail.com` seed record (main.go lines 53-60). -/
def janeDoe : Customer :=
  ⟨2, "Jane Doe", "User", "jane.doe@gmail.com", "0987654321", false⟩

/-- `john.smith@gmail.com` seed record (main.go lines 61-68). -/
def johnSmith : Customer :=
  ⟨3, "John Smith", "User", "john.smith@gmail.com", "1234567890", false⟩

/-- `var customers = map[uint64]Customer{...}` (main.go lines 44-69):
the seeded initial store. -/
def customers : Store := [(1, johnDoe), (2, janeDoe), (3, johnSmith)]

/-- `strconv.ParseUint(givenId, 10, 64)`: succeeds exactly on non-empty
all-decimal-digit strings whose value fits in 64 bits; a sign, any other
character, or the empty string is a syntax error, and a too-large value is a
range error (Go's error strings, via `err.Error()`). -/
def parseUint64 (s : String) : Except String Nat :=
  if s.data.isEmpty then
    .error ("strconv.ParseUint: parsing \"" ++ s ++ "\": invalid syntax")
  else if s.data.all (fun ch => ch.isDigit) then
    let n := s.data.foldl (fun acc ch => acc * 10 + (ch.toNat - 48)) 0
    if n < 2 ^ 64 then .ok n
    else .error ("strconv.ParseUint: parsing \"" ++ s ++ "\": value out of range")
  else .error ("strconv.ParseUint: parsing \"" ++ s ++ "\": invalid syntax")

deriving instance DecidableEq for Except

/-- What a handler writes through `json.NewEncoder(w).Encode(...)` (or
nothing, for the missing-path-variable branch). -/
inductive Body where
  | empty : Body
  | err : String → Body
  | customer : Customer → Body
  | list : List Customer → Body
deriving DecidableEq, Repr

/-- A handler's observable outcome: HTTP status, response body, and the
store after the call. -/
structure HResp where
  status : Nat
  body : Body
  store : Store
deriving DecidableEq, Repr

/-- `getCustomerSlices` (main.go lines 95-103): the list of all records. -/
def getCustomerSlices (s : Store) : List Customer := s.map Prod.snd

/-- `getCustomers` handler (main.go lines 109-116): `GET /customers`. -/
def getCustomers (store : Store) : HResp :=
  ⟨200, .list (getCustomerSlices store), store⟩

/-- `getCustomer` handler (main.go lines 120-148): `GET /customers/id`.
`idParam` is `mux.Vars(r)["id"]` (`none` when the path variable is absent). -/
def getCustomer (store : Store) (idParam : Option String) : HResp :=
  match idParam with
  | none => ⟨400, .empty, store⟩
  | some givenId =>
    match parseUint64 givenId with
    | .error e =>
        ⟨400, .err ("Failed to parse the given id: " ++ givenId ++ ". " ++ e),
          store⟩
    | .ok id =>
      match lookupId store id with
      | some customer => ⟨200, .customer customer, store⟩
      | none =>
          ⟨404, .err ("Customer with id: " ++ givenId ++ " not found."), store⟩

/-- `addCustomer` handler (main.go lines 152-183): `POST /customers`.
`body` is the result of `readCustomerFromRequestBody` (decoded record, or
the read/unmarshal error). -/
def addCustomer (store : Store) (body : Except String Customer) : HResp :=
  match body with
  | .error e =>
      ⟨400,
        .err ("Failed to read customer data from the request body. " ++ e),
        store⟩
  | .ok customer =>
    if customer.Id = 0 then
      ⟨400, .err "Invalid customer id 0. Customer id should be greater than 0.",
        store⟩
    else if (lookupId store customer.Id).isSome then
      ⟨409, .list (getCustomerSlices store), store⟩
    else
      let snew := insertId store customer.Id customer
      ⟨201, .list (getCustomerSlices snew), snew⟩

/-- `updateCustomer` handler (main.go lines 187-230): `PUT /customers/id`. -/
def updateCustomer (store : Store) (idParam : Option String)
    (body : Except String Customer) : HResp :=
  match idParam with
  | none => ⟨400, .empty, store⟩
  | some givenId =>
    match parseUint64 givenId with
    | .error e =>
        ⟨400, .err ("Failed to parse the given id: " ++ givenId ++ ". " ++ e),
          store⟩
    | .ok id =>
      match body with
      | .error e =>
          ⟨400,
            .err ("Failed to read customer data from the request body. " ++ e),
            store⟩
      | .ok customer =>
        if customer.Id ≠ id then
          ⟨400,
            .err "Customer id in the request body does not match the id in the URL path.",
            store⟩
        else if (lookupId store id).isSome then
          let snew := insertId store id customer
          ⟨200, .list (getCustomerSlices snew), snew⟩
        else
          ⟨404, .err ("Customer with id: " ++ givenId ++ " not found."), store⟩

/-- `deleteCustomer` handler (main.go lines 234-264): `DELETE /customers/id`. -/
def deleteCustomer (store : Store) (idParam : Option String) : HResp :=
  match idParam with
  | none => ⟨400, .empty, store⟩
  | some givenId =>
    match parseUint64 givenId with
    | .error e =>
        ⟨400, .err ("Failed to parse the given id: " ++ givenId ++ ". " ++ e),
          store⟩
    | .ok id =>
      if (lookupId store id).isSome then
        let snew := eraseId store id
        ⟨200, .list (getCustomerSlices snew), snew⟩
      else
        ⟨404, .err ("Customer with id: " ++ givenId ++ " not found."), store⟩

/-- One inbound request, abstracted to the data a handler consumes: the
path variable (for the `/customers/id` routes) and/or the decoded body. -/
inductive Request where
  | list : Request
  | get : Option String → Request
  | create : Except String Customer → Request
  | update : Option String → Except String Customer → Request
  | delete : Option String → Request

/-- Dispatch of one request to its handler (the router of `main`). -/
def Request.apply : Request → Store → HResp
  | .list, s => getCustomers s
  | .get p, s => getCustomer s p
  | .create b, s => addCustomer s b
  | .update p b, s => updateCustomer s p b
  | .delete p, s => deleteCustomer s p

/-- The store after serving a sequence of requests. -/
def runActions : List Request → Store → Store
  | [], s => s
  | a :: rest, s => runActions rest ((Request.apply a s).store)

/-- JSON values, as far as this service's wire format needs. -/
inductive Json where
  | str : String → Json
  | num : Nat → Json
  | bool : Bool → Json
  | arr : List Json → Json
  | obj : List (String × Json) → Json

/-- The keys of a JSON object (empty for non-objects). -/
def jsonObjKeys : Json → List String
  | .obj fields => fields.map Prod.fst
  | _ => []

/-- `encoding/json` marshalling of `Customer` under the struct tags of
main.go lines 24-31: every field carries `omitempty`, so it is emitted
exactly when it is not its zero value (0, the empty string, `false`). -/
def encodeCustomer (c : Customer) : Json :=
  .obj
    ((if c.Id = 0 then [] else [("id", Json.num c.Id)]) ++
      (if c.Name = "" then [] else [("name", Json.str c.Name)]) ++
      (if c.Role = "" then [] else [("role", Json.str c.Role)]) ++
      (if c.Email = "" then [] else [("email", Json.str c.Email)]) ++
      (if c.Phone = "" then [] else [("phone", Json.str c.Phone)]) ++
      (if c.IsContacted = false then []
        else [("contacted", Json.bool c.IsContacted)]))

/-- Marshalling of the `[]Customer` returned by `getCustomerSlices`. -/
def encodeCustomerList (l : List Customer) : Json :=
  .arr (l.map encodeCustomer)

/-! ### Lemmas about the store operations -/

theorem lookupId_eq_none {s : Store} {id : Nat} :
    lookupId s id = none ↔ id ∉ storeKeys s := by
  induction s with
  | nil => simp [lookupId, storeKeys]
  | cons p rest ih =>
    obtain ⟨k, v⟩ := p
    by_cases hk : k = id
    · subst hk
      simp [lookupId, storeKeys]
    · simp [lookupId, storeKeys, hk, Ne.symm hk, ih]

theorem insertId_of_not_mem {s : Store} {id : Nat} (c : Customer)
    (h : id ∉ storeKeys s) : insertId s id c = s ++ [(id, c)] := by
  induction s with
  | nil => simp [insertId]
  | cons p rest ih =>
    obtain ⟨k, v⟩ := p
    simp only [storeKeys, List.map_cons, List.mem_cons] at h
    push_neg at h
    simp [insertId, Ne.symm h.1, ih h.2]

theorem lookupId_insertId_self (s : Store) (id : Nat) (c : Customer) :
    lookupId (insertId s id c) id = some c := by
  induction s with
  | nil => simp [insertId, lookupId]
  | cons p rest ih =>
    obtain ⟨k, v⟩ := p
    by_cases hk : k = id
    · simp [insertId, lookupId, hk]
    · simp [insertId, lookupId, hk, ih]

theorem lookupId_insertId_ne (s : Store) {id k : Nat} (c : Customer)
    (h : k ≠ id) : lookupId (insertId s id c) k = lookupId s k := by
  induction s with
  | nil => simp [insertId, lookupId, Ne.symm h]
  | cons p rest ih =>
    obtain ⟨k', v⟩ := p
    by_cases hk : k' = id
    · subst hk
      simp [insertId, lookupId, Ne.symm h]
    · simp only [insertId, if_neg hk, lookupId]
      by_cases hk2 : k' = k <;> simp [hk2, ih]

theorem lookupId_eraseId_self (s : Store) (id : Nat) :
    lookupId (eraseId s id) id = none := by
  induction s with
  | nil => simp [eraseId, lookupId]
  | cons p rest ih =>
    obtain ⟨k, v⟩ := p
    by_cases hk : k = id
    · simp [eraseId, hk, ih]
    · simp [eraseId, lookupId, hk, ih]

theorem mem_insertId {s : Store} {id : Nat} {c : Customer}
    {p : Nat × Customer} (h : p ∈ insertId s id c) : p = (id, c) ∨ p ∈ s := by
  induction s with
  | nil => simpa [insertId] using h
  | cons q rest ih =>
    obtain ⟨k, v⟩ := q
    by_cases hk : k = id
    · simp only [insertId, if_pos hk, List.mem_cons] at h
      rcases h with h | h
      · exact .inl h
      · exact .inr (List.mem_cons_of_mem _ h)
    · simp only [insertId, if_neg hk, List.mem_cons] at h
      rcases h with h | h
      · exact .inr (List.mem_cons.2 (.inl h))
      · rcases ih h with h2 | h2
        · exact .inl h2
        · exact .inr (List.mem_cons_of_mem _ h2)

theorem storeKeys_insertId_of_mem {s : Store} {id : Nat} (c : Customer)
    (h : id ∈ storeKeys s) : storeKeys (insertId s id c) = storeKeys s := by
  induction s with
  | nil => simp [storeKeys] at h
  | cons p rest ih =>
    obtain ⟨k, v⟩ := p
    by_cases hk : k = id
    · simp [insertId, hk, storeKeys]
    · simp only [storeKeys, List.map_cons, List.mem_cons] at h
      rcases h with h | h
      · exact absurd h.symm hk
      · simp only [insertId, if_neg hk, storeKeys, List.map_cons]
        rw [show List.map Prod.fst (insertId rest id c) = storeKeys (insertId rest id c) from rfl,
          ih h]
        rfl

theorem lookupId_isSome {s : Store} {id : Nat} :
    (lookupId s id).isSome ↔ id ∈ storeKeys s := by
  rw [Option.isSome_iff_ne_none, Ne, lookupId_eq_none]
  exact not_not

theorem eraseId_sublist (s : Store) (id : Nat) : (eraseId s id).Sublist s := by
  induction s with
  | nil => simp [eraseId]
  | cons p rest ih =>
    obtain ⟨k, v⟩ := p
    by_cases hk : k = id
    · simp only [eraseId, if_pos hk]
      exact ih.cons _
    · simp only [eraseId, if_neg hk]
      exact ih.cons₂ _

/-! ### The store invariant and its preservation by every handler -/

/-- The spec's data-model invariant: keys are unique, non-zero, and every
record is stored under its own `Id`. -/
def goodStore (s : Store) : Prop :=
  (storeKeys s).Nodup ∧ ∀ p ∈ s, p.1 ≠ 0 ∧ p.2.Id = p.1

theorem goodStore_key_ne_zero {s : Store} (h : goodStore s) {id : Nat}
    (hm : id ∈ storeKeys s) : id ≠ 0 := by
  obtain ⟨p, hp, rfl⟩ := List.mem_map.1 hm
  exact (h.2 p hp).1

theorem goodStore_insertId {s : Store} {id : Nat} {c : Customer}
    (h : goodStore s) (h0 : id ≠ 0) (hc : c.Id = id) :
    goodStore (insertId s id c) := by
  by_cases hm : id ∈ storeKeys s
  · refine ⟨?_, ?_⟩
    · rw [storeKeys_insertId_of_mem c hm]
      exact h.1
    · intro p hp
      rcases mem_insertId hp with rfl | hp2
      · exact ⟨h0, hc⟩
      · exact h.2 p hp2
  · rw [insertId_of_not_mem c hm]
    refine ⟨?_, ?_⟩
    · have : storeKeys (s ++ [(id, c)]) = storeKeys s ++ [id] := by
        simp [storeKeys]
      rw [this]
      refine List.Nodup.append h.1 (List.nodup_singleton id) ?_
      intro a ha hb
      rw [List.mem_singleton] at hb
      exact hm (hb ▸ ha)
    · intro p hp
      rcases List.mem_append.1 hp with hp2 | hp2
      · exact h.2 p hp2
      · rcases List.mem_singleton.1 hp2 with rfl
        exact ⟨h0, hc⟩

theorem goodStore_eraseId {s : Store} (id : Nat) (h : goodStore s) :
    goodStore (eraseId s id) := by
  refine ⟨?_, ?_⟩
  · exact h.1.sublist ((eraseId_sublist s id).map Prod.fst)
  · intro p hp
    exact h.2 p ((eraseId_sublist s id).subset hp)

theorem getCustomer_store (s : Store) (p : Option String) :
    (getCustomer s p).store = s := by
  cases p with
  | none => rfl
  | some g =>
    rcases hp : parseUint64 g with e | id
    · simp [getCustomer, hp]
    · rcases hl : lookupId s id with _ | c <;> simp [getCustomer, hp, hl]

theorem addCustomer_good {s : Store} (b : Except String Customer)
    (h : goodStore s) : goodStore ((addCustomer s b).store) := by
  cases b with
  | error e => exact h
  | ok c =>
    by_cases h0 : c.Id = 0
    · simpa [addCustomer, h0] using h
    · by_cases hm : (lookupId s c.Id).isSome
      · simpa [addCustomer, h0, hm] using h
      · have hst : (addCustomer s (.ok c)).store = insertId s c.Id c := by
          simp [addCustomer, h0, hm]
        rw [hst]
        exact goodStore_insertId h h0 rfl

theorem updateCustomer_good {s : Store} (p : Option String)
    (b : Except String Customer) (h : goodStore s) :
    goodStore ((updateCustomer s p b).store) := by
  cases p with
  | none => exact h
  | some g =>
    rcases hp : parseUint64 g with e | id
    · simpa [updateCustomer, hp] using h
    · cases b with
      | error e => simpa [updateCustomer, hp] using h
      | ok c =>
        by_cases hne : c.Id = id
        · by_cases hm : (lookupId s id).isSome
          · have hst :
                (updateCustomer s (some g) (.ok c)).store = insertId s id c := by
              simp [updateCustomer, hp, hne, hm]
            rw [hst]
            exact goodStore_insertId h
              (goodStore_key_ne_zero h (lookupId_isSome.1 hm)) hne
          · simpa [updateCustomer, hp, hne, hm] using h
        · simpa [updateCustomer, hp, hne] using h

theorem deleteCustomer_good {s : Store} (p : Option String)
    (h : goodStore s) : goodStore ((deleteCustomer s p).store) := by
  cases p with
  | none => exact h
  | some g =>
    rcases hp : parseUint64 g with e | id
    · simpa [deleteCustomer, hp] using h
    · by_cases hm : (lookupId s id).isSome
      · have hst : (deleteCustomer s (some g)).store = eraseId s id := by
          simp [deleteCustomer, hp, hm]
        rw [hst]
        exact goodStore_eraseId id h
      · simpa [deleteCustomer, hp, hm] using h

theorem apply_good (a : Request) (s : Store) (h : goodStore s) :
    goodStore ((Request.apply a s).store) := by
  cases a with
  | list => exact h
  | get p => rw [Request.apply, getCustomer_store]; exact h
  | create b => exact addCustomer_good b h
  | update p b => exact updateCustomer_good p b h
  | delete p => exact deleteCustomer_good p h

theorem runActions_good (acts : List Request) {s : Store} (h : goodStore s) :
    goodStore (runActions acts s) := by
  induction acts generalizing s with
  | nil => exact h
  | cons a rest ih => exact ih (apply_good a s h)

theorem goodStore_customers : goodStore customers := by
  constructor
  · decide
  · decide

theorem lookupId_mem {s : Store} {k : Nat} {c : Customer}
    (h : lookupId s k = some c) : (k, c) ∈ s := by
  induction s with
  | nil => simp [lookupId] at h
  | cons p rest ih =>
    obtain ⟨k2, v⟩ := p
    by_cases hk : k2 = k
    · subst hk
      simp only [lookupId, if_true, eq_self_iff_true, if_pos] at h
      cases Option.some.inj h
      exact List.mem_cons_self _ _
    · simp only [lookupId, if_neg hk] at h
      exact List.mem_cons_of_mem _ (ih h)

theorem lookupId_of_mem {s : Store} (hn : (storeKeys s).Nodup)
    {p : Nat × Customer} (hp : p ∈ s) : lookupId s p.1 = some p.2 := by
  induction s with
  | nil => simp at hp
  | cons q rest ih =>
    obtain ⟨k, v⟩ := q
    simp only [storeKeys, List.map_cons, List.nodup_cons] at hn
    rcases List.mem_cons.1 hp with rfl | hp2
    · simp [lookupId]
    · have hk : k ≠ p.1 := by
        intro he
        exact hn.1 (he ▸ List.mem_map.2 ⟨p, hp2, rfl⟩)
      simp only [lookupId, if_neg hk]
      exact ih hn.2 hp2

theorem mem_ite_nil {p : Prop} [Decidable p] {n m : String} :
    (n ∈ if p then ([] : List String) else [m]) ↔ ¬p ∧ n = m := by
  split_ifs with h <;> simp [h]

theorem jsonObjKeys_encodeCustomer (c : Customer) :
    jsonObjKeys (encodeCustomer c) =
      (if c.Id = 0 then [] else ["id"]) ++
        (if c.Name = "" then [] else ["name"]) ++
        (if c.Role = "" then [] else ["role"]) ++
        (if c.Email = "" then [] else ["email"]) ++
        (if c.Phone = "" then [] else ["phone"]) ++
        (if c.IsContacted = false then [] else ["contacted"]) := by
  simp only [encodeCustomer, jsonObjKeys]
  split_ifs <;> rfl

/-! ### The claims -/

/-- Claim C1: for every decoded body whose id is non-zero and not yet in the
store, `POST /customers` appends exactly that record under its own id,
responds 201, and the body is the full new customer list, which contains the
created record. -/
theorem addCustomer_created (store : Store) (c : Customer)
    (h0 : c.Id ≠ 0) (habs : lookupId store c.Id = none) :
    addCustomer store (.ok c) =
      ⟨201, .list (getCustomerSlices (store ++ [(c.Id, c)])),
        store ++ [(c.Id, c)]⟩ ∧
    c ∈ getCustomerSlices (store ++ [(c.Id, c)]) := by
  have hni : c.Id ∉ storeKeys store := lookupId_eq_none.1 habs
  have hins := insertId_of_not_mem (s := store) c hni
  constructor
  · simp [addCustomer, h0, habs, hins]
  · simp [getCustomerSlices]

theorem addCustomer_created_witness :
    addCustomer customers (.ok ⟨4, "X", "User", "x@y.com", "111", false⟩) =
      ⟨201,
        .list (getCustomerSlices
          (customers ++ [(4, ⟨4, "X", "User", "x@y.com", "111", false⟩)])),
        customers ++ [(4, ⟨4, "X", "User", "x@y.com", "111", false⟩)]⟩ ∧
    (⟨4, "X", "User", "x@y.com", "111", false⟩ : Customer) ∈
      getCustomerSlices
        (customers ++ [(4, ⟨4, "X", "User", "x@y.com", "111", false⟩)]) :=
  addCustomer_created customers ⟨4, "X", "User", "x@y.com", "111", false⟩
    (by decide) (by decide)

/-- Claim C2: for every store satisfying the data-model invariant and every
decoded body whose id is already present, `POST /customers` responds 409,
leaves the store exactly as it was, and still returns the full customer
list. -/
theorem addCustomer_conflict (store : Store) (c : Customer)
    (hg : goodStore store) (hpres : (lookupId store c.Id).isSome) :
    addCustomer store (.ok c) =
      ⟨409, .list (getCustomerSlices store), store⟩ := by
  have h0 : c.Id ≠ 0 := goodStore_key_ne_zero hg (lookupId_isSome.1 hpres)
  simp [addCustomer, h0, hpres]

theorem addCustomer_conflict_witness :
    addCustomer customers (.ok ⟨1, "Imp", "Admin", "a@b.c", "0", true⟩) =
      ⟨409, .list (getCustomerSlices customers), customers⟩ :=
  addCustomer_conflict customers ⟨1, "Imp", "Admin", "a@b.c", "0", true⟩
    ⟨by decide, by decide⟩ (by decide)

/-- Claim C3: for every `PUT /customers/id` whose path id parses, whose body
decodes with matching id, and whose id is present, the stored record is
replaced wholesale, the response is 200 with the full current list, and every
other key's binding is untouched. -/
theorem updateCustomer_replaces (store : Store) (givenId : String) (id : Nat)
    (c : Customer) (hp : parseUint64 givenId = .ok id) (hid : c.Id = id)
    (hmem : (lookupId store id).isSome) :
    updateCustomer store (some givenId) (.ok c) =
      ⟨200, .list (getCustomerSlices (insertId store id c)),
        insertId store id c⟩ ∧
    lookupId (insertId store id c) id = some c ∧
    (∀ k, k ≠ id → lookupId (insertId store id c) k = lookupId store k) := by
  refine ⟨by simp [updateCustomer, hp, hid, hmem],
    lookupId_insertId_self _ _ _, ?_⟩
  intro k hk
  exact lookupId_insertId_ne _ _ hk

theorem updateCustomer_replaces_witness :
    updateCustomer customers (some "3")
        (.ok ⟨3, "New Name", "User", "n@n.n", "5", false⟩) =
      ⟨200,
        .list (getCustomerSlices
          (insertId customers 3 ⟨3, "New Name", "User", "n@n.n", "5", false⟩)),
        insertId customers 3 ⟨3, "New Name", "User", "n@n.n", "5", false⟩⟩ ∧
    lookupId (insertId customers 3 ⟨3, "New Name", "User", "n@n.n", "5", false⟩)
        3 = some ⟨3, "New Name", "User", "n@n.n", "5", false⟩ ∧
    lookupId (insertId customers 3 ⟨3, "New Name", "User", "n@n.n", "5", false⟩)
        1 = lookupId customers 1 :=
  have h := updateCustomer_replaces customers "3" 3
    ⟨3, "New Name", "User", "n@n.n", "5", false⟩ (by decide) rfl (by decide)
  ⟨h.1, h.2.1, h.2.2 1 (by decide)⟩

/-- Claim C4: for every store and every `PUT /customers/id` whose path id
parses and whose body decodes with an id different from the path id, the
response is 400 with the mismatch message and the store is untouched — with
no condition on the path id being present, since the mismatch check precedes
the not-found check. -/
theorem updateCustomer_mismatch (store : Store) (givenId : String) (id : Nat)
    (c : Customer) (hp : parseUint64 givenId = .ok id) (hne : c.Id ≠ id) :
    updateCustomer store (some givenId) (.ok c) =
      ⟨400,
        .err "Customer id in the request body does not match the id in the URL path.",
        store⟩ := by
  simp [updateCustomer, hp, hne]

theorem updateCustomer_mismatch_witness :
    updateCustomer customers (some "3") (.ok ⟨4, "", "", "", "", false⟩) =
      ⟨400,
        .err "Customer id in the request body does not match the id in the URL path.",
        customers⟩ ∧
    updateCustomer customers (some "9") (.ok ⟨4, "", "", "", "", false⟩) =
      ⟨400,
        .err "Customer id in the request body does not match the id in the URL path.",
        customers⟩ :=
  ⟨updateCustomer_mismatch customers "3" 3 ⟨4, "", "", "", "", false⟩
      (by decide) (by decide),
    updateCustomer_mismatch customers "9" 9 ⟨4, "", "", "", "", false⟩
      (by decide) (by decide)⟩

/-- Claim C5: `GET /customers/id` responds 400 with an error message built
from the raw id text and the parse failure reason when the path id does not
parse, 404 with a message naming the missing id when it parses but is not
stored, and 200 with the encoded record otherwise. -/
theorem getCustomer_cases (store : Store) (givenId : String) :
    (∀ e, parseUint64 givenId = .error e →
      getCustomer store (some givenId) =
        ⟨400, .err ("Failed to parse the given id: " ++ givenId ++ ". " ++ e),
          store⟩) ∧
    (∀ id, parseUint64 givenId = .ok id → lookupId store id = none →
      getCustomer store (some givenId) =
        ⟨404, .err ("Customer with id: " ++ givenId ++ " not found."),
          store⟩) ∧
    (∀ id c, parseUint64 givenId = .ok id → lookupId store id = some c →
      getCustomer store (some givenId) = ⟨200, .customer c, store⟩) := by
  refine ⟨?_, ?_, ?_⟩
  · intro e hp
    simp [getCustomer, hp]
  · intro id hp hl
    simp [getCustomer, hp, hl]
  · intro id c hp hl
    simp [getCustomer, hp, hl]

theorem getCustomer_cases_witness :
    getCustomer customers (some "abc") =
      ⟨400,
        .err ("Failed to parse the given id: " ++ "abc" ++ ". " ++
          "strconv.ParseUint: parsing \"abc\": invalid syntax"),
        customers⟩ ∧
    getCustomer customers (some "999") =
      ⟨404, .err ("Customer with id: " ++ "999" ++ " not found."),
        customers⟩ ∧
    getCustomer customers (some "1") = ⟨200, .customer johnDoe, customers⟩ :=
  ⟨(getCustomer_cases customers "abc").1
      "strconv.ParseUint: parsing \"abc\": invalid syntax" (by decide),
    (getCustomer_cases customers "999").2.1 999 (by decide) (by decide),
    (getCustomer_cases customers "1").2.2 1 johnDoe (by decide) (by decide)⟩

/-- Claim C6: every store reachable from the seed by handler invocations has
pairwise-distinct keys none of which is 0, and `POST /customers` with a
zero-id body on such a store responds 400 with the error string and leaves
the store unmodified. -/
theorem store_ids_unique_nonzero (acts : List Request) (c : Customer)
    (h0 : c.Id = 0) :
    (storeKeys (runActions acts customers)).Nodup ∧
    0 ∉ storeKeys (runActions acts customers) ∧
    addCustomer (runActions acts customers) (.ok c) =
      ⟨400, .err "Invalid customer id 0. Customer id should be greater than 0.",
        runActions acts customers⟩ := by
  have hg := runActions_good acts goodStore_customers
  refine ⟨hg.1, ?_, ?_⟩
  · intro hk
    exact goodStore_key_ne_zero hg hk rfl
  · simp [addCustomer, h0]

theorem store_ids_unique_nonzero_witness :
    (storeKeys (runActions [] customers)).Nodup ∧
    0 ∉ storeKeys (runActions [] customers) ∧
    addCustomer (runActions [] customers) (.ok ⟨0, "", "", "", "", false⟩) =
      ⟨400, .err "Invalid customer id 0. Customer id should be greater than 0.",
        runActions [] customers⟩ :=
  store_ids_unique_nonzero [] ⟨0, "", "", "", "", false⟩ rfl

/-- Claim C7: deleting a present id removes its entry and responds 200 with
the full current list; immediately repeating the same delete responds 404 and
returns the store unchanged, so the store after two deletes equals the store
after one. -/
theorem deleteCustomer_twice (store : Store) (givenId : String) (id : Nat)
    (hp : parseUint64 givenId = .ok id)
    (hmem : (lookupId store id).isSome) :
    deleteCustomer store (some givenId) =
      ⟨200, .list (getCustomerSlices (eraseId store id)), eraseId store id⟩ ∧
    lookupId (eraseId store id) id = none ∧
    deleteCustomer (eraseId store id) (some givenId) =
      ⟨404, .err ("Customer with id: " ++ givenId ++ " not found."),
        eraseId store id⟩ := by
  have he := lookupId_eraseId_self store id
  refine ⟨by simp [deleteCustomer, hp, hmem], he, ?_⟩
  simp [deleteCustomer, hp, he]

theorem deleteCustomer_twice_witness :
    deleteCustomer customers (some "2") =
      ⟨200, .list (getCustomerSlices (eraseId customers 2)),
        eraseId customers 2⟩ ∧
    lookupId (eraseId customers 2) 2 = none ∧
    deleteCustomer (eraseId customers 2) (some "2") =
      ⟨404, .err ("Customer with id: " ++ "2" ++ " not found."),
        eraseId customers 2⟩ :=
  deleteCustomer_twice customers "2" 2 (by decide) (by decide)

/-- Claim C8: before any mutation, `GET /customers` responds 200 with exactly
the three seeded records, and each record's JSON encoding omits the
`contacted` field because its value is `false`. -/
theorem getCustomers_initial_seed :
    getCustomers customers =
      ⟨200, .list [johnDoe, janeDoe, johnSmith], customers⟩ ∧
    encodeCustomerList (getCustomerSlices customers) =
      .arr
        [.obj [("id", .num 1), ("name", .str "John Doe"),
            ("role", .str "Admin"), ("email", .str "john.doe@gmail.com"),
            ("phone", .str "1234567890")],
          .obj [("id", .num 2), ("name", .str "Jane Doe"),
            ("role", .str "User"), ("email", .str "jane.doe@gmail.com"),
            ("phone", .str "0987654321")],
          .obj [("id", .num 3), ("name", .str "John Smith"),
            ("role", .str "User"), ("email", .str "john.smith@gmail.com"),
            ("phone", .str "1234567890")]] ∧
    "contacted" ∉ jsonObjKeys (encodeCustomer johnDoe) ∧
    "contacted" ∉ jsonObjKeys (encodeCustomer janeDoe) ∧
    "contacted" ∉ jsonObjKeys (encodeCustomer johnSmith) := by
  refine ⟨rfl, rfl, ?_, ?_, ?_⟩ <;> decide

/-- Claim C9: the JSON encoding of a `Customer` contains each of the six
fields exactly when that field is not its zero value (0 for `id`, the empty
string for the four text fields, `false` for `contacted`). -/
theorem encodeCustomer_omitempty (c : Customer) :
    ("id" ∈ jsonObjKeys (encodeCustomer c) ↔ c.Id ≠ 0) ∧
    ("name" ∈ jsonObjKeys (encodeCustomer c) ↔ c.Name ≠ "") ∧
    ("role" ∈ jsonObjKeys (encodeCustomer c) ↔ c.Role ≠ "") ∧
    ("email" ∈ jsonObjKeys (encodeCustomer c) ↔ c.Email ≠ "") ∧
    ("phone" ∈ jsonObjKeys (encodeCustomer c) ↔ c.Phone ≠ "") ∧
    ("contacted" ∈ jsonObjKeys (encodeCustomer c) ↔ c.IsContacted ≠ false) := by
  rw [jsonObjKeys_encodeCustomer]
  simp [mem_ite_nil]

/-- Claim C10: in every reachable store each record is stored under its own
`Id`; hence a successful `GET /customers/id` lookup returns a record whose
`Id` is the looked-up key, and every record in the `GET /customers` list is
stored under its own `Id`. -/
theorem record_id_matches_key (acts : List Request) :
    (∀ p ∈ runActions acts customers, p.2.Id = p.1) ∧
    (∀ k c, lookupId (runActions acts customers) k = some c → c.Id = k) ∧
    (∀ c ∈ getCustomerSlices (runActions acts customers),
      lookupId (runActions acts customers) c.Id = some c) := by
  have hg := runActions_good acts goodStore_customers
  refine ⟨fun p hp => (hg.2 p hp).2, ?_, ?_⟩
  · intro k c hl
    exact (hg.2 (k, c) (lookupId_mem hl)).2
  · intro c hc
    obtain ⟨p, hp, rfl⟩ := List.mem_map.1 hc
    have hid := (hg.2 p hp).2
    rw [hid]
    exact lookupId_of_mem hg.1 hp

theorem record_id_matches_key_witness :
    johnDoe.Id = 1 ∧ janeDoe.Id = 2 ∧
    lookupId (runActions [] customers) johnSmith.Id = some johnSmith :=
  have h := record_id_matches_key []
  ⟨h.1 (1, johnDoe) (by decide), h.2.1 2 janeDoe (by decide),
    h.2.2 johnSmith (by decide)⟩
